import Mathlib

/-!
Verification of the supermemory-selfhosted service against its specification.

The TypeScript sources are shallowly embedded as Lean functions:
* external collaborators (the embedding inference endpoint, the Postgres
  engine executing the generated SQL) appear as explicit function parameters
  or as small executable models of the documented engine behaviour;
* the document table is a list of rows, SQL `UPDATE`/`DELETE`/`SELECT`
  statements become the corresponding list transformations;
* JavaScript truthiness checks on optional strings (`if (!q)` etc.) are
  modelled by `strTruthy` on `Option String`;
* fallible external calls return `Option` / `Except`.
-/

namespace Supermemory

/-- Embedding vectors (pgvector `vector(1536)` values); components as rationals. -/
abbrev Vec := List ℚ

/-- Scalar JSON values stored in `metadata`/settings JSONB columns.  The
shallow-merge operator never inspects values, so values are scalars here. -/
inductive JVal where
  | null
  | bool (b : Bool)
  | num (n : ℚ)
  | str (s : String)
deriving DecidableEq, Repr

/-- A JSONB object: ordered association list from string keys to values. -/
abbrev Meta := List (String × JVal)

/-- A row of the `documents` table (see the migration in src/migrate.ts). -/
structure Document where
  id : String
  content : String
  metadata : Meta
  embedding : Option Vec
  containerTag : String
  status : String
  createdAt : Nat
  updatedAt : Nat
deriving DecidableEq, Repr

/-- The `documents` table. -/
abbrev Store := List Document

/-- An HTTP handler outcome: a success body, or an error status with message. -/
inductive Resp (α : Type) where
  | ok (body : α)
  | err (status : Nat) (msg : String)
deriving DecidableEq, Repr

/-- JavaScript truthiness of an optional string field: `undefined`/absent and
the empty string are falsy, every other string is truthy. -/
def strTruthy : Option String → Bool
  | none => false
  | some s => !(s == "")

/-! ## Embedding client (src/embeddings.ts) -/

/-- The fixed character budget applied by `text.slice(0, 8000)`. -/
def EMBEDDING_MAX_CHARS : Nat := 8000

/-- The truncation `text.slice(0, 8000)`: keeps the first
`EMBEDDING_MAX_CHARS` characters of the input. -/
def truncateBudget (s : String) : String :=
  ⟨s.toList.take EMBEDDING_MAX_CHARS⟩

/-- Model of `generateEmbedding` from src/embeddings.ts: truncates the input to the
first `EMBEDDING_MAX_CHARS` characters, submits it to the external inference
endpoint, and returns `response.data[0].embedding`.  The external endpoint is
the parameter `endpoint`; `none` models a failed call. -/
def generateEmbedding (endpoint : List String → Option (List Vec))
    (text : String) : Option Vec :=
  (endpoint [truncateBudget text]).bind (fun data => data.head?)

/-- Model of `generateEmbeddings` from src/embeddings.ts: truncates every input to the
first `EMBEDDING_MAX_CHARS` characters and submits all of them in one batched
call, returning `response.data.map(d => d.embedding)`. -/
def generateEmbeddings (endpoint : List String → Option (List Vec))
    (texts : List String) : Option (List Vec) :=
  endpoint (texts.map truncateBudget)

/-! ## JSONB shallow merge (`metadata = metadata || $1::jsonb`) -/

/-- Postgres JSONB object concatenation `old || patch`: shallow, right-biased
union of the top-level keys (patch keys overwrite, other keys are retained). -/
def mergeMeta (old patch : Meta) : Meta :=
  old.filter (fun kv => !(patch.any (fun pv => pv.1 == kv.1))) ++ patch

/-- Lookup of a top-level key in a JSONB object. -/
def metaLookup (m : Meta) (k : String) : Option JVal :=
  (m.find? (fun kv => kv.1 == k)).map (fun kv => kv.2)

/-! ## Search (src/routes/search.ts)

The pgvector cosine-distance operator `<=>` belongs to the storage engine,
which the repository delegates to; it is the parameter `dist` throughout.
`embedding <=> $1::vector` on a row `d` is `distToQuery dist qv d`. -/

/-- The SQL expression `embedding <=> $1::vector` evaluated on one row (rows reaching this
expression always have a non-null embedding). -/
def distToQuery (dist : Vec → Vec → ℚ) (qv : Vec) (d : Document) : ℚ :=
  dist (d.embedding.getD []) qv

/-- Ordering relation of `ORDER BY embedding <=> $1::vector` ascending. -/
abbrev byDist (dist : Vec → Vec → ℚ) (qv : Vec) : Document → Document → Prop :=
  fun a b => distToQuery dist qv a ≤ distToQuery dist qv b

/-- Request body of `POST /v3/search`. -/
structure SearchBody where
  q : Option String
  containerTag : Option String
  limit : Option Nat
  threshold : Option ℚ

/-- Request body of `POST /v4/search`. -/
structure SearchV4Body where
  q : Option String
  limit : Option Nat

/-- A hit of the v3 search response (`results` entries). -/
structure V3Hit where
  id : String
  content : String
  metadata : Meta
  containerTag : String
  score : ℚ
  createdAt : Nat
  updatedAt : Nat
deriving DecidableEq, Repr

/-- A hit of the v4 search response (`memories` entries). -/
structure V4Hit where
  id : String
  content : String
  metadata : Meta
  score : ℚ
  createdAt : Nat
deriving DecidableEq, Repr

/-- Projection of a row into the v3 response shape. -/
def projV3 (dist : Vec → Vec → ℚ) (qv : Vec) (d : Document) : V3Hit :=
  ⟨d.id, d.content, d.metadata, d.containerTag,
    1 - distToQuery dist qv d, d.createdAt, d.updatedAt⟩

/-- Projection of a row into the v4 response shape (no tag, no updatedAt). -/
def projV4 (dist : Vec → Vec → ℚ) (qv : Vec) (d : Document) : V4Hit :=
  ⟨d.id, d.content, d.metadata, 1 - distToQuery dist qv d, d.createdAt⟩

/-- The rows produced by the SQL statement built by the v3 search handler:
`WHERE embedding IS NOT NULL` always, `AND container_tag = $n` only when
`containerTag` is truthy, `AND 1 - (embedding <=> $1::vector) > $n`, then
`ORDER BY embedding <=> $1::vector LIMIT $n`. -/
def searchV3rows (dist : Vec → Vec → ℚ) (store : Store) (qv : Vec)
    (containerTag : Option String) (lim : Nat) (threshold : ℚ) : List Document :=
  let base := store.filter (fun d => d.embedding.isSome)
  let tagged :=
    if strTruthy containerTag then
      base.filter (fun d => d.containerTag == containerTag.getD "")
    else base
  let scored := tagged.filter (fun d => threshold < 1 - distToQuery dist qv d)
  (scored.insertionSort (byDist dist qv)).take lim

/-- Model of `search.post("/")` from src/routes/search.ts: rejects a falsy `q` with
400, embeds the query, runs `searchV3rows` with defaults `limit = 10` and
`threshold = 0.3`, and returns the projected rows with their count. -/
def searchV3Handler (dist : Vec → Vec → ℚ)
    (endpoint : List String → Option (List Vec)) (store : Store)
    (body : SearchBody) : Resp (List V3Hit × Nat) :=
  if !(strTruthy body.q) then .err 400 "q (query) is required"
  else
    match generateEmbedding endpoint (body.q.getD "") with
    | none => .err 500 "EmbeddingFailure"
    | some qv =>
      let rows := searchV3rows dist store qv body.containerTag
        (body.limit.getD 10) (body.threshold.getD (3 / 10))
      .ok (rows.map (projV3 dist qv), rows.length)

/-- The rows produced by the SQL statement of the v4 search handler:
`WHERE embedding IS NOT NULL ORDER BY embedding <=> $1::vector LIMIT $2`
(no tag filter, no score threshold). -/
def searchV4rows (dist : Vec → Vec → ℚ) (store : Store) (qv : Vec)
    (lim : Nat) : List Document :=
  ((store.filter (fun d => d.embedding.isSome)).insertionSort
    (byDist dist qv)).take lim

/-- Model of `searchV4.post("/")` from src/routes/search.ts: rejects a falsy `q` with
400, embeds the query, and returns the first `limit` (default 10) rows with
non-null embedding by ascending distance, projected into the v4 shape. -/
def searchV4Handler (dist : Vec → Vec → ℚ)
    (endpoint : List String → Option (List Vec)) (store : Store)
    (body : SearchV4Body) : Resp (List V4Hit) :=
  if !(strTruthy body.q) then .err 400 "q (query) is required"
  else
    match generateEmbedding endpoint (body.q.getD "") with
    | none => .err 500 "EmbeddingFailure"
    | some qv =>
      .ok ((searchV4rows dist store qv (body.limit.getD 10)).map (projV4 dist qv))

/-! ## Document routes (src/routes/documents.ts) and memory routes
(src/routes/memories.ts) -/

/-- Model of `UPDATE documents SET ... WHERE id = $n`: applies `f` to every row whose
id matches (no-op when the id is absent). -/
def updateDocs (docId : String) (f : Document → Document) (store : Store) : Store :=
  store.map (fun d => if d.id == docId then f d else d)

/-- Response body shape of the form `\x7bid, status\x7d`. -/
structure IdStatus where
  id : String
  status : String
deriving DecidableEq, Repr

/-- Response body of the v3 bulk delete: deleted ids and their count. -/
structure BulkDeleted where
  deleted : List String
  count : Nat
deriving DecidableEq, Repr

/-- Response body of `DELETE /v4/memories`: a deleted-row count. -/
structure DeletedCount where
  deleted : Nat
deriving DecidableEq, Repr

/-- One item of a `POST /v3/documents/batch` request. -/
structure DocIn where
  content : String
  metadata : Option Meta
  containerTag : Option String
deriving DecidableEq, Repr

/-- The row written by the batch insert for one item: fresh id, given content
and embedding, metadata defaulting to the empty object, tag defaulting to
"default", status "processed", timestamps from `now()`. -/
def mkRow (docId : String) (d : DocIn) (v : Vec) (now : Nat) : Document :=
  ⟨docId, d.content, d.metadata.getD [], some v,
    d.containerTag.getD "default", "processed", now, now⟩

/-- The Postgres engine executing
`DELETE FROM documents WHERE id IN (placeholders) RETURNING id`:
an empty placeholder list makes the statement syntactically invalid, so the
query fails and nothing is deleted; otherwise the matching rows are removed
and their ids returned. -/
def execDeleteIn (store : Store) (ids : List String) :
    Except String (Store × List String) :=
  if ids.isEmpty then .error "sql error: empty IN list"
  else
    .ok (store.filter (fun d => !(ids.contains d.id)),
      (store.filter (fun d => ids.contains d.id)).map (fun d => d.id))

/-- Model of `documents.delete("/:id")`: deletes the row with the given id, answering
404 when no row was deleted. -/
def deleteDocHandler (store : Store) (docId : String) :
    Resp IdStatus × Store :=
  let deletedRows := store.filter (fun d => d.id == docId)
  let remaining := store.filter (fun d => !(d.id == docId))
  if deletedRows.isEmpty then (.err 404 "Document not found", store)
  else (.ok ⟨docId, "deleted"⟩, remaining)

/-- Model of `documents.delete("/bulk")`: 400 unless `ids` is an array, otherwise
deletes `WHERE id IN (...)` and returns the deleted ids with their count
(`none` models a body whose `ids` is not an array). -/
def bulkDeleteHandler (store : Store) (ids : Option (List String)) :
    Resp BulkDeleted × Store :=
  match ids with
  | none => (.err 400 "ids array is required", store)
  | some l =>
    match execDeleteIn store l with
    | .error e => (.err 500 e, store)
    | .ok (st2, deletedIds) => (.ok ⟨deletedIds, deletedIds.length⟩, st2)

/-- Model of `memories.delete("/")` (DELETE /v4/memories): with an `ids` array it
deletes `WHERE id IN (...)` and returns the row count; otherwise with a
truthy `containerTag` it deletes by tag; otherwise 400. -/
def memoriesDeleteHandler (store : Store) (ids : Option (List String))
    (containerTag : Option String) : Resp DeletedCount × Store :=
  match ids with
  | some l =>
    match execDeleteIn store l with
    | .error e => (.err 500 e, store)
    | .ok (st2, deletedIds) => (.ok ⟨deletedIds.length⟩, st2)
  | none =>
    if strTruthy containerTag then
      let tag := containerTag.getD ""
      (.ok ⟨(store.filter (fun d => d.containerTag == tag)).length⟩,
        store.filter (fun d => !(d.containerTag == tag)))
    else (.err 400 "Provide ids or containerTag", store)

/-- Model of `documents.patch("/:id")` (PATCH /v3/documents/:id): first checks
existence (404 when absent); then, with a truthy `content`, re-embeds and
rewrites content and embedding; then, with a present `metadata`, shallow
merges it; refreshing `updated_at` on each write. -/
def patchDocHandler (endpoint : List String → Option (List Vec)) (now : Nat)
    (store : Store) (docId : String) (content : Option String)
    (metadata : Option Meta) : Resp IdStatus × Store :=
  if (store.filter (fun d => d.id == docId)).isEmpty then
    (.err 404 "Document not found", store)
  else
    match (if strTruthy content then generateEmbedding endpoint (content.getD "")
           else some []) with
    | none => (.err 500 "EmbeddingFailure", store)
    | some emb =>
      let st1 :=
        if strTruthy content then
          updateDocs docId (fun d =>
            { d with content := content.getD "", embedding := some emb,
                     updatedAt := now }) store
        else store
      let st2 :=
        match metadata with
        | some patch =>
          updateDocs docId (fun d =>
            { d with metadata := mergeMeta d.metadata patch,
                     updatedAt := now }) st1
        | none => st1
      (.ok ⟨docId, "updated"⟩, st2)

/-- Model of `memories.patch("/")` (PATCH /v4/memories): 400 on a falsy `id`; then
applies the content and metadata updates directly, with no existence check,
and answers `\x7bid, status: "updated"\x7d` regardless of whether any row
matched. -/
def memoriesPatchHandler (endpoint : List String → Option (List Vec))
    (now : Nat) (store : Store) (docId : Option String)
    (content : Option String) (metadata : Option Meta) :
    Resp IdStatus × Store :=
  if !(strTruthy docId) then (.err 400 "id is required", store)
  else
    let i := docId.getD ""
    match (if strTruthy content then generateEmbedding endpoint (content.getD "")
           else some []) with
    | none => (.err 500 "EmbeddingFailure", store)
    | some emb =>
      let st1 :=
        if strTruthy content then
          updateDocs i (fun d =>
            { d with content := content.getD "", embedding := some emb,
                     updatedAt := now }) store
        else store
      let st2 :=
        match metadata with
        | some patch =>
          updateDocs i (fun d =>
            { d with metadata := mergeMeta d.metadata patch,
                     updatedAt := now }) st1
        | none => st1
      (.ok ⟨i, "updated"⟩, st2)

/-- The per-row write loop of `documents.post("/batch")`: rows are inserted
one by one in order; a failing row write (`writeFail i`) raises, aborting the
loop with the prior writes already committed (no transaction wraps the
loop). -/
def batchInsertLoop (writeFail : Nat → Bool) (idGen : Nat → String)
    (now : Nat) : List (DocIn × Vec) → Nat → Store →
    Store × Option (List IdStatus)
  | [], _, st => (st, some [])
  | (d, v) :: rest, i, st =>
    if writeFail i then (st, none)
    else
      let p := batchInsertLoop writeFail idGen now rest (i + 1)
        (st ++ [mkRow (idGen i) d v now])
      (p.1, p.2.map (fun rs => ⟨idGen i, "processed"⟩ :: rs))

/-- Model of `documents.post("/batch")` (POST /v3/documents/batch): 400 unless the
body holds a non-empty array; embeds all contents in one batched call (a
failure there persists nothing); then writes each row independently via
`batchInsertLoop`. -/
def batchAddHandler (endpoint : List String → Option (List Vec))
    (writeFail : Nat → Bool) (idGen : Nat → String) (now : Nat)
    (store : Store) (docs : Option (List DocIn)) :
    Resp (List IdStatus) × Store :=
  match docs with
  | none => (.err 400 "documents array is required", store)
  | some ds =>
    if ds.isEmpty then (.err 400 "documents array is required", store)
    else
      match generateEmbeddings endpoint (ds.map (fun d => d.content)) with
      | none => (.err 500 "EmbeddingFailure", store)
      | some embs =>
        match batchInsertLoop writeFail idGen now (ds.zip embs) 0 store with
        | (st2, some results) => (.ok results, st2)
        | (st2, none) => (.err 500 "StorageFailure", st2)

/-! ## Auth middleware and routing (src/index.ts)

Hono dispatches a request to the first route, in registration order, whose
method and pattern match; a `:name` pattern segment matches any single path
segment.  The auth middleware is registered on `/v3/*` and `/v4/*` before the
routes. -/

/-- The string "Bearer " that the middleware strips from the header. -/
def bearerPrefix : String := "Bearer "

/-- Removal of the first occurrence of `pat` from a character list, the
semantics of the JavaScript `String.replace(pat, "")` with a string
pattern. -/
def replFirstAux (pat : List Char) : List Char → List Char
  | [] => []
  | c :: rest =>
    if pat.isPrefixOf (c :: rest) then List.drop pat.length (c :: rest)
    else c :: replFirstAux pat rest

/-- The middleware expression `auth?.replace("Bearer ", "")`. -/
def stripBearer (s : String) : String :=
  ⟨replFirstAux bearerPrefix.toList s.toList⟩

/-- The auth middleware body: with a truthy configured `API_KEY`, the request
passes iff the Authorization header, after removing the first occurrence of
"Bearer ", equals the key; with no (or an empty) configured key every request
passes. -/
def authGate (apiKey : Option String) (header : Option String) : Bool :=
  if strTruthy apiKey then
    match header with
    | none => false
    | some h => stripBearer h == apiKey.getD ""
  else true

/-- Paths covered by the `app.use("/v3/*")` and `app.use("/v4/*")`
middleware registrations (paths as segment lists). -/
def requiresAuth : List String → Bool
  | "v3" :: _ => true
  | "v4" :: _ => true
  | _ => false

/-- One segment of a Hono route pattern. -/
inductive Seg where
  | lit (s : String)
  | par (name : String)
deriving DecidableEq, Repr

/-- Handler identifiers of the documents sub-app (src/routes/documents.ts). -/
inductive DocHid where
  | addDoc
  | batchAdd
  | listDocs
  | listProcessing
  | getDoc
  | patchDoc
  | deleteDoc
  | bulkDelete
  | fileUpload
deriving DecidableEq, Repr

/-- A registered route of the documents sub-app. -/
structure Route where
  method : String
  pattern : List Seg
  handler : DocHid
deriving DecidableEq, Repr

/-- Matching a pattern against a path, producing parameter bindings. -/
def matchSegs : List Seg → List String → Option (List (String × String))
  | [], [] => some []
  | .lit s :: ps, x :: xs => if s == x then matchSegs ps xs else none
  | .par n :: ps, x :: xs => (matchSegs ps xs).map (fun bs => (n, x) :: bs)
  | _, _ => none

/-- The routes of the documents sub-app in their registration order in
src/routes/documents.ts. -/
def documentsRoutes : List Route :=
  [ ⟨"POST", [], .addDoc⟩,
    ⟨"POST", [.lit "batch"], .batchAdd⟩,
    ⟨"POST", [.lit "list"], .listDocs⟩,
    ⟨"GET", [.lit "processing"], .listProcessing⟩,
    ⟨"GET", [.par "id"], .getDoc⟩,
    ⟨"PATCH", [.par "id"], .patchDoc⟩,
    ⟨"DELETE", [.par "id"], .deleteDoc⟩,
    ⟨"DELETE", [.lit "bulk"], .bulkDelete⟩,
    ⟨"POST", [.lit "file"], .fileUpload⟩ ]

/-- Hono dispatch inside a sub-app: the first route in registration order
whose method and pattern match wins. -/
def dispatchFirst (routes : List Route) (method : String)
    (path : List String) : Option (DocHid × List (String × String)) :=
  match routes with
  | [] => none
  | r :: rest =>
    if r.method == method then
      match matchSegs r.pattern path with
      | some bs => some (r.handler, bs)
      | none => dispatchFirst rest method path
    else dispatchFirst rest method path

/-- Top-level handler identifiers of the app (src/index.ts). -/
inductive AppHid where
  | health
  | doc (h : DocHid) (binds : List (String × String))
  | searchV3
  | settingsGet
  | settingsPatch
  | searchV4
  | memDelete
  | memPatch
  | profile
deriving DecidableEq, Repr

/-- Top-level routing of src/index.ts, in registration order: the health
route, then the mounted sub-apps. -/
def appRoute (method : String) (path : List String) : Option AppHid :=
  match method, path with
  | "GET", ["health"] => some .health
  | _, "v3" :: "documents" :: rest =>
    (dispatchFirst documentsRoutes method rest).map (fun p => .doc p.1 p.2)
  | "POST", ["v3", "search"] => some .searchV3
  | "GET", ["v3", "settings"] => some .settingsGet
  | "PATCH", ["v3", "settings"] => some .settingsPatch
  | "POST", ["v4", "search"] => some .searchV4
  | "DELETE", ["v4", "memories"] => some .memDelete
  | "PATCH", ["v4", "memories"] => some .memPatch
  | "POST", ["v4", "profile"] => some .profile
  | _, _ => none

/-- Outcome of routing plus the auth middleware. -/
inductive Dispatch where
  | unauthorized
  | matched (h : AppHid)
  | notFound
deriving DecidableEq, Repr

/-- The app's dispatch: the auth middleware runs first on `/v3/*` and
`/v4/*` paths and answers 401 when the gate fails; otherwise the request
reaches the matched handler. -/
def appDispatch (apiKey : Option String) (method : String)
    (path : List String) (header : Option String) : Dispatch :=
  if requiresAuth path && !(authGate apiKey header) then .unauthorized
  else
    match appRoute method path with
    | some h => .matched h
    | none => .notFound

/-- Response body of `GET /health`. -/
structure HealthResp where
  status : String
  version : String
deriving DecidableEq, Repr

/-- Handler of `GET /health` in src/index.ts. -/
def healthHandler : Resp HealthResp := .ok ⟨"ok", "1.0.0"⟩

/-! ## Concrete fixtures used to instantiate the theorems -/

/-- A stored document with an embedding. -/
def wDocA : Document := ⟨"a", "alpha", [], some [1], "default", "processed", 0, 0⟩

/-- A second stored document with an embedding. -/
def wDocB : Document := ⟨"b", "beta", [], some [2], "default", "processed", 0, 0⟩

/-- A stored document with a null embedding. -/
def wDocN : Document := ⟨"n", "nu", [], none, "default", "processed", 0, 0⟩

/-- A concrete instantiation of the engine's distance operator. -/
def wDist : Vec → Vec → ℚ := fun u _ => if u.headD 0 == 1 then 1 / 2 else 1

/-- A concrete distance operator under which every document is distant. -/
def wDistFar : Vec → Vec → ℚ := fun _ _ => 1

/-- A concrete embedding endpoint behaving per the inference API contract:
one vector per input, in order. -/
def wEndpoint : List String → Option (List Vec) :=
  fun ts => some (ts.map (fun s => [(s.length : ℚ)]))

/-- A concrete embedding endpoint whose calls always fail. -/
def wEndpointFail : List String → Option (List Vec) := fun _ => none

/-- The per-text embedding underlying `wEndpoint`. -/
def wEmbedOne : String → Vec := fun s => [(s.length : ℚ)]

/-- A concrete embedding endpoint answering a constant vector per input. -/
def wEndpointConst : List String → Option (List Vec) :=
  fun ts => some (ts.map (fun _ => [1]))

/-- Default batch item used by positional lookups in theorem statements. -/
def dfltItem : DocIn × Vec := (⟨"", none, none⟩, [])

/-! ## Theorems -/

/-- C9: the embedding client submits only the first 8000 characters of every
input (oversized input is silently clipped, never an error: two inputs that
agree on their first 8000 characters yield identical calls), and
`generateEmbeddings` returns one vector per input text with the i-th output
vector the embedding of the i-th truncated input, preserving input order
(given an endpoint meeting the inference API contract of answering each
submitted text with its vector, in order). -/
theorem C9_embedding_truncation_and_order
    (embedOne : String → Vec) (endpoint : List String → Option (List Vec))
    (hpt : ∀ ts, endpoint ts = some (ts.map embedOne))
    (text : String) (texts : List String) :
    generateEmbedding endpoint text = some (embedOne (truncateBudget text))
    ∧ (∀ t1 t2 : String, truncateBudget t1 = truncateBudget t2 →
        generateEmbedding endpoint t1 = generateEmbedding endpoint t2)
    ∧ generateEmbeddings endpoint texts
        = some ((texts.map truncateBudget).map embedOne)
    ∧ ((generateEmbeddings endpoint texts).getD []).length = texts.length
    ∧ (∀ i, i < texts.length →
        List.getD ((generateEmbeddings endpoint texts).getD []) i []
          = embedOne (truncateBudget (List.getD texts i ""))) := by
  refine ⟨?_, ?_, ?_, ?_, ?_⟩
  · simp [generateEmbedding, hpt]
  · intro t1 t2 h
    simp [generateEmbedding, h]
  · simp [generateEmbeddings, hpt]
  · simp [generateEmbeddings, hpt]
  · intro i hi
    simp only [generateEmbeddings, hpt, Option.getD_some]
    rw [List.getD_eq_getElem?_getD, List.getD_eq_getElem?_getD,
      List.getElem?_map, List.getElem?_map, List.getElem?_eq_getElem hi]
    simp

/-- Witness for C9 at a concrete endpoint and concrete texts. -/
theorem C9_embedding_truncation_and_order_witness :
    (∀ ts, wEndpoint ts = some (ts.map wEmbedOne))
    ∧ (generateEmbedding wEndpoint "hello"
        = some (wEmbedOne (truncateBudget "hello"))
      ∧ (∀ t1 t2 : String, truncateBudget t1 = truncateBudget t2 →
          generateEmbedding wEndpoint t1 = generateEmbedding wEndpoint t2)
      ∧ generateEmbeddings wEndpoint ["a", "bb"]
          = some ((["a", "bb"].map truncateBudget).map wEmbedOne)
      ∧ ((generateEmbeddings wEndpoint ["a", "bb"]).getD []).length
          = ["a", "bb"].length
      ∧ (∀ i, i < ["a", "bb"].length →
          List.getD ((generateEmbeddings wEndpoint ["a", "bb"]).getD []) i []
            = wEmbedOne (truncateBudget (List.getD ["a", "bb"] i "")))) :=
  ⟨fun _ => rfl,
    C9_embedding_truncation_and_order wEmbedOne wEndpoint (fun _ => rfl)
      "hello" ["a", "bb"]⟩

/-- C7: a v3 or v4 search request whose query text is empty or missing is
answered with a 400 validation error, and no embedding call is made (the
outcome is the same for any two embedding endpoints). -/
theorem C7_empty_query_validation
    (dist : Vec → Vec → ℚ) (e1 e2 : List String → Option (List Vec))
    (store : Store) (b3 : SearchBody) (b4 : SearchV4Body)
    (h3 : strTruthy b3.q = false) (h4 : strTruthy b4.q = false) :
    searchV3Handler dist e1 store b3 = .err 400 "q (query) is required"
    ∧ searchV4Handler dist e1 store b4 = .err 400 "q (query) is required"
    ∧ searchV3Handler dist e1 store b3 = searchV3Handler dist e2 store b3
    ∧ searchV4Handler dist e1 store b4 = searchV4Handler dist e2 store b4 := by
  unfold searchV3Handler searchV4Handler
  rw [h3, h4]
  simp

/-- Auxiliary: removing the first occurrence of a non-empty pattern from a
list that starts with that pattern leaves the remainder. -/
theorem replFirstAux_leading (pat l : List Char) (hne : pat ≠ []) :
    replFirstAux pat (pat ++ l) = l := by
  match pat with
  | [] => exact absurd rfl hne
  | c :: cs =>
    have hpre : (c :: cs).isPrefixOf ((c :: cs) ++ l) = true :=
      List.isPrefixOf_iff_prefix.mpr (List.prefix_append _ _)
    show replFirstAux (c :: cs) (c :: (cs ++ l)) = l
    unfold replFirstAux
    rw [show c :: (cs ++ l) = (c :: cs) ++ l from rfl, hpre]
    simp [List.drop_left]

/-- Auxiliary: `auth?.replace("Bearer ", "")` applied to a header of the
exact shape `Bearer <key>` yields the key. -/
theorem stripBearer_exact (k : String) :
    stripBearer (bearerPrefix ++ k) = k := by
  unfold stripBearer
  rw [show (bearerPrefix ++ k).toList = bearerPrefix.toList ++ k.toList by
    simp [String.toList, String.data_append]]
  rw [replFirstAux_leading _ _ (by decide)]
  rfl

/-- Witness for C7 at the empty query string and a missing query. -/
theorem C7_empty_query_validation_witness :
    strTruthy (some "") = false
    ∧ strTruthy (none : Option String) = false
    ∧ (searchV3Handler wDist wEndpointFail [wDocA] ⟨some "", none, none, none⟩
        = .err 400 "q (query) is required"
      ∧ searchV4Handler wDist wEndpointFail [wDocA] ⟨none, none⟩
        = .err 400 "q (query) is required"
      ∧ searchV3Handler wDist wEndpointFail [wDocA] ⟨some "", none, none, none⟩
        = searchV3Handler wDist wEndpoint [wDocA] ⟨some "", none, none, none⟩
      ∧ searchV4Handler wDist wEndpointFail [wDocA] ⟨none, none⟩
        = searchV4Handler wDist wEndpoint [wDocA] ⟨none, none⟩) :=
  ⟨by decide, by decide,
    C7_empty_query_validation wDist wEndpointFail wEndpoint [wDocA]
      ⟨some "", none, none, none⟩ ⟨none, none⟩ (by decide) (by decide)⟩

/-- Counterexample to C4: with API key "secret" configured, a request to a
/v3 path whose Authorization header carries the bare key with no "Bearer "
prefix is NOT answered 401 — it reaches the handler, because the middleware
only strips an occurrence of "Bearer " and then compares. -/
theorem C4_bare_key_counterexample :
    strTruthy (some "secret") = true
    ∧ requiresAuth ["v3", "search"] = true
    ∧ appDispatch (some "secret") "POST" ["v3", "search"] (some "secret")
        = .matched .searchV3
    ∧ appDispatch (some "secret") "POST" ["v3", "search"] (some "secret")
        ≠ .unauthorized := by
  decide

/-- C4 (amended): when an API key is configured, a /v3 or /v4 request passes
the auth middleware iff its Authorization header, after removal of the first
occurrence of the substring "Bearer ", equals the configured key — so
`Bearer <key>` is accepted, the bare key without the prefix is accepted too,
and a missing header is answered 401; GET /health is matched without any
Authorization header regardless of configuration. -/
theorem C4_auth_amended
    (apiKey : Option String) (hkey : strTruthy apiKey = true)
    (method : String) (path : List String) (hpath : requiresAuth path = true)
    (header : Option String) :
    (header = none → appDispatch apiKey method path header = .unauthorized)
    ∧ (appDispatch apiKey method path header = .unauthorized
        ↔ ¬ ∃ h, header = some h ∧ stripBearer h = apiKey.getD "")
    ∧ (∀ k, apiKey = some k →
        appDispatch apiKey method path (some (bearerPrefix ++ k))
          ≠ .unauthorized)
    ∧ (∀ key hdr : Option String,
        appDispatch key "GET" ["health"] hdr = .matched .health
        ∧ healthHandler = .ok ⟨"ok", "1.0.0"⟩) := by
  refine ⟨?_, ?_, ?_, ?_⟩
  · intro h
    subst h
    simp [appDispatch, authGate, hkey, hpath]
  · unfold appDispatch authGate
    rw [hpath, hkey]
    cases header with
    | none =>
      simp
    | some h =>
      by_cases hb : stripBearer h = apiKey.getD ""
      · simp only [hb, if_pos]
        simp only [beq_self_eq_true]
        constructor
        · intro hcontr
          cases hr : appRoute method path <;> simp [hr] at hcontr
        · intro hcontr
          exact absurd ⟨h, rfl, hb⟩ hcontr
      · have : (stripBearer h == apiKey.getD "") = false := by
          simpa using hb
        simp [this, hb]
  · intro k hk
    subst hk
    have : authGate (some k) (some (bearerPrefix ++ k)) = true := by
      simp [authGate, hkey, stripBearer_exact]
    unfold appDispatch
    rw [this]
    cases hr : appRoute method path <;> simp [hr]
  · intro key hdr
    refine ⟨?_, rfl⟩
    have h1 : requiresAuth ["health"] = false := rfl
    have h2 : appRoute "GET" ["health"] = some .health := rfl
    simp [appDispatch, h1, h2]

/-- Witness for C4 (amended) at a concrete key, path and Bearer header. -/
theorem C4_auth_amended_witness :
    strTruthy (some "secret") = true
    ∧ requiresAuth ["v3", "search"] = true
    ∧ ((some ("Bearer x") = none →
        appDispatch (some "secret") "POST" ["v3", "search"] (some ("Bearer x"))
          = .unauthorized)
      ∧ (appDispatch (some "secret") "POST" ["v3", "search"] (some ("Bearer x"))
          = .unauthorized
        ↔ ¬ ∃ h, some ("Bearer x") = some h
            ∧ stripBearer h = (some "secret").getD "")
      ∧ (∀ k, some "secret" = some k →
          appDispatch (some "secret") "POST" ["v3", "search"]
            (some (bearerPrefix ++ k)) ≠ .unauthorized)
      ∧ (∀ key hdr : Option String,
          appDispatch key "GET" ["health"] hdr = .matched .health
          ∧ healthHandler = .ok ⟨"ok", "1.0.0"⟩)) :=
  ⟨by decide, by decide,
    C4_auth_amended (some "secret") (by decide) "POST" ["v3", "search"]
      (by decide) (some ("Bearer x"))⟩

/-- C3 (bug evidence): the bulk-delete route is registered after the
`DELETE /:id` route, and Hono dispatches to the first match in registration
order, so `DELETE /v3/documents/bulk` is captured by the `/:id` handler with
the literal id "bulk" — the bulk handler is unreachable.  On a store holding
document "a", a request that per the claim should delete "a" and answer
with the deleted ids instead answers 404 and deletes nothing, while the
registered-but-shadowed bulk handler would have deleted it. -/
theorem C3_bulk_delete_route_shadowed :
    dispatchFirst documentsRoutes "DELETE" ["bulk"]
      = some (.deleteDoc, [("id", "bulk")])
    ∧ (⟨"DELETE", [.lit "bulk"], .bulkDelete⟩ : Route) ∈ documentsRoutes
    ∧ deleteDocHandler [wDocA] "bulk" = (.err 404 "Document not found", [wDocA])
    ∧ bulkDeleteHandler [wDocA] (some ["a"]) = (.ok ⟨["a"], 1⟩, [])
    ∧ appRoute "DELETE" ["v3", "documents", "bulk"]
        = some (.doc .deleteDoc [("id", "bulk")]) := by
  decide

/-- C10: the bulk deletion handlers, given an empty `ids` array, build a
`DELETE ... WHERE id IN ()` statement with an empty list, so the operation
ends in a 5xx storage error with nothing deleted, not a successful
zero-count deletion; and `DELETE /v4/memories` with such a body reaches
that handler at the public interface. -/
theorem C10_empty_ids_storage_error (store : Store) :
    memoriesDeleteHandler store (some []) none
      = (.err 500 "sql error: empty IN list", store)
    ∧ bulkDeleteHandler store (some [])
      = (.err 500 "sql error: empty IN list", store)
    ∧ (∀ n : Nat, (memoriesDeleteHandler store (some []) none).1 ≠ .ok ⟨n⟩)
    ∧ (∀ b : BulkDeleted, (bulkDeleteHandler store (some [])).1 ≠ .ok b)
    ∧ appDispatch none "DELETE" ["v4", "memories"] none = .matched .memDelete := by
  refine ⟨?_, ?_, ?_, ?_, by decide⟩ <;>
    simp [memoriesDeleteHandler, bulkDeleteHandler, execDeleteIn]

/-- Auxiliary: an UPDATE targeting an id matched by no row leaves the table
unchanged. -/
theorem updateDocs_absent (docId : String) (f : Document → Document)
    (store : Store) (habs : ∀ d ∈ store, (d.id == docId) = false) :
    updateDocs docId f store = store := by
  induction store with
  | nil => rfl
  | cons d ds ih =>
    have hd := habs d (List.mem_cons_self d ds)
    have hds : ∀ x ∈ ds, (x.id == docId) = false :=
      fun x hx => habs x (List.mem_cons_of_mem d hx)
    show (if (d.id == docId) = true then f d else d) :: updateDocs docId f ds
      = d :: ds
    rw [hd, ih hds]
    simp

/-- Auxiliary: the first row matching an id, after an UPDATE targeting that
id with an id-preserving change, is the changed first match. -/
theorem findFirst_updateDocs (docId : String) (f : Document → Document)
    (hid : ∀ d, (f d).id = d.id) (store : Store) :
    List.find? (fun d => d.id == docId) (updateDocs docId f store)
      = (List.find? (fun d => d.id == docId) store).map f := by
  induction store with
  | nil => rfl
  | cons d ds ih =>
    by_cases h : (d.id == docId) = true
    · have hf : ((f d).id == docId) = true := by rw [hid]; exact h
      show List.find? (fun x => x.id == docId)
          ((if (d.id == docId) = true then f d else d) :: updateDocs docId f ds)
        = Option.map f (List.find? (fun x => x.id == docId) (d :: ds))
      rw [if_pos h]
      simp only [List.find?_cons, hf, h]
      rfl
    · have hb : (d.id == docId) = false := Bool.eq_false_iff.mpr h
      show List.find? (fun x => x.id == docId)
          ((if (d.id == docId) = true then f d else d) :: updateDocs docId f ds)
        = Option.map f (List.find? (fun x => x.id == docId) (d :: ds))
      rw [if_neg h]
      simp only [List.find?_cons, hb]
      exact ih

/-- Auxiliary: a filter whose predicate is implied by the search predicate
does not change the result of the search. -/
theorem findFirst_filter_of_imp {α : Type} (pr q : α → Bool)
    (himp : ∀ a, pr a = true → q a = true) (l : List α) :
    List.find? pr (l.filter q) = List.find? pr l := by
  induction l with
  | nil => rfl
  | cons a as ih =>
    by_cases hq : q a = true
    · rw [List.filter_cons_of_pos hq]
      by_cases hp : pr a = true
      · rw [List.find?_cons_of_pos _ hp, List.find?_cons_of_pos _ hp]
      · rw [List.find?_cons_of_neg _ hp, List.find?_cons_of_neg _ hp, ih]
    · rw [List.filter_cons_of_neg hq]
      have hp : ¬ pr a = true := fun hpa => hq (himp a hpa)
      rw [List.find?_cons_of_neg _ hp, ih]

/-- Auxiliary: lookup law of the JSONB shallow merge — a key held by the
patch resolves to the patch value, any other key keeps the old value. -/
theorem metaLookup_mergeMeta (m patch : Meta) (k : String) :
    metaLookup (mergeMeta m patch) k
      = if patch.any (fun kv => kv.1 == k) then metaLookup patch k
        else metaLookup m k := by
  unfold metaLookup mergeMeta
  rw [List.find?_append]
  by_cases hp : patch.any (fun kv => kv.1 == k) = true
  · rw [if_pos hp]
    have hnone : List.find? (fun kv => kv.1 == k)
        (m.filter fun kv => !(patch.any fun pv => pv.1 == kv.1)) = none := by
      rw [List.find?_eq_none]
      intro kv hkv hkk
      have hmem := (List.mem_filter.mp hkv).2
      have hk1 : kv.1 = k := by simpa using hkk
      rw [hk1] at hmem
      simp [hp] at hmem
    rw [hnone, Option.none_or]
  · rw [if_neg hp]
    have hfilter : List.find? (fun kv => kv.1 == k)
        (m.filter fun kv => !(patch.any fun pv => pv.1 == kv.1))
          = List.find? (fun kv => kv.1 == k) m := by
      apply findFirst_filter_of_imp
      intro a ha
      have ha1 : a.1 = k := by simpa using ha
      have hpf : patch.any (fun kv => kv.1 == k) = false :=
        Bool.eq_false_iff.mpr hp
      rw [ha1, hpf]
      rfl
    have hpn : List.find? (fun kv => kv.1 == k) patch = none := by
      rw [List.find?_eq_none]
      intro kv hkv hkk
      exact hp (List.any_eq_true.mpr ⟨kv, hkv, hkk⟩)
    rw [hfilter, hpn, Option.or_none]

/-- Counterexample to C5: PATCH /v4/memories with an id absent from the
store answers 200 with status "updated" and modifies nothing — it does not
fail with NotFound. -/
theorem C5_v4_patch_absent_id_counterexample :
    List.filter (fun d => d.id == "zzz") [wDocA] = []
    ∧ memoriesPatchHandler wEndpoint 7 [wDocA] (some "zzz") (some "hello")
        (some [("k", JVal.num 1)])
      = (.ok ⟨"zzz", "updated"⟩, [wDocA])
    ∧ ∀ msg, (memoriesPatchHandler wEndpoint 7 [wDocA] (some "zzz")
        (some "hello") (some [("k", JVal.num 1)])).1 ≠ .err 404 msg := by
  refine ⟨by decide, by decide, ?_⟩
  intro msg
  rw [show (memoriesPatchHandler wEndpoint 7 [wDocA] (some "zzz")
      (some "hello") (some [("k", JVal.num 1)])).1
    = .ok ⟨"zzz", "updated"⟩ from by decide]
  simp

/-- C5 (amended): an update whose id is absent from the store modifies no
row on either route, and PATCH /v3/documents/:id fails with 404 NotFound;
but PATCH /v4/memories never answers 404 — on an absent id it still answers
with status "updated" (or propagates an embedding failure). -/
theorem C5_update_notfound_amended
    (endpoint : List String → Option (List Vec)) (now : Nat) (store : Store)
    (docId : String) (content : Option String) (metadata : Option Meta)
    (habs : store.filter (fun d => d.id == docId) = []) :
    patchDocHandler endpoint now store docId content metadata
      = (.err 404 "Document not found", store)
    ∧ (memoriesPatchHandler endpoint now store (some docId) content metadata).2
        = store
    ∧ (∀ msg, (memoriesPatchHandler endpoint now store (some docId) content
        metadata).1 ≠ .err 404 msg) := by
  have habs2 : ∀ d ∈ store, (d.id == docId) = false := by
    intro d hd
    have := List.filter_eq_nil_iff.mp habs d hd
    simpa using this
  have hupd : ∀ f : Document → Document, updateDocs docId f store = store :=
    fun f => updateDocs_absent docId f store habs2
  have hempty : (store.filter (fun d => d.id == docId)).isEmpty = true := by
    rw [habs]; rfl
  refine ⟨?_, ?_, ?_⟩
  · unfold patchDocHandler
    rw [hempty]
    simp
  · unfold memoriesPatchHandler
    by_cases hid : strTruthy (some docId) = true
    · rw [hid]
      simp only [Bool.not_true, if_false]
      rcases hE : (if strTruthy content
          then generateEmbedding endpoint (content.getD "") else some []) with _ | emb
      · simp
      · simp only [Option.getD_some]
        cases metadata <;> by_cases hc : strTruthy content = true <;>
          simp [hc, hupd]
    · have hid2 : strTruthy (some docId) = false := by
        simpa using hid
      rw [hid2]
      simp
  · intro msg
    unfold memoriesPatchHandler
    by_cases hid : strTruthy (some docId) = true
    · rw [hid]
      simp only [Bool.not_true, if_false]
      rcases hE : (if strTruthy content
          then generateEmbedding endpoint (content.getD "") else some []) with _ | emb
      · simp
      · simp
    · have hid2 : strTruthy (some docId) = false := by
        simpa using hid
      rw [hid2]
      simp

/-- Witness for C5 (amended) at a concrete store and absent id. -/
theorem C5_update_notfound_amended_witness :
    List.filter (fun d => d.id == "zzz") [wDocA] = []
    ∧ (patchDocHandler wEndpoint 7 [wDocA] "zzz" none none
        = (.err 404 "Document not found", [wDocA])
      ∧ (memoriesPatchHandler wEndpoint 7 [wDocA] (some "zzz") none none).2
          = [wDocA]
      ∧ (∀ msg, (memoriesPatchHandler wEndpoint 7 [wDocA] (some "zzz") none
          none).1 ≠ .err 404 msg)) :=
  ⟨by decide,
    C5_update_notfound_amended wEndpoint 7 [wDocA] "zzz" none none (by decide)⟩

/-- Auxiliary: a successful row search witnesses a non-empty filter. -/
theorem filterNonempty_of_find (pr : Document → Bool) (store : Store)
    (x : Document) (h : List.find? pr store = some x) :
    (store.filter pr).isEmpty = false := by
  have hm := List.mem_of_find?_eq_some h
  have hp : pr x = true := List.find?_some h
  have hf : x ∈ store.filter pr := List.mem_filter.mpr ⟨hm, hp⟩
  cases hfe : store.filter pr with
  | nil => rw [hfe] at hf; cases hf
  | cons a as => rfl

/-- Auxiliary: evaluation of PATCH /v3/documents/:id when only `metadata` is
supplied and the id exists. -/
theorem patchDoc_metadata_only (endpoint : List String → Option (List Vec))
    (now : Nat) (store : Store) (docId : String) (patch : Meta)
    (hne : (store.filter (fun x => x.id == docId)).isEmpty = false) :
    patchDocHandler endpoint now store docId none (some patch)
      = (.ok ⟨docId, "updated"⟩,
        updateDocs docId (fun d =>
          { d with metadata := mergeMeta d.metadata patch,
                   updatedAt := now }) store) := by
  unfold patchDocHandler
  rw [hne]
  simp [strTruthy]

/-- Auxiliary: evaluation of PATCH /v4/memories when only `metadata` is
supplied and the id is truthy. -/
theorem memoriesPatch_metadata_only (endpoint : List String → Option (List Vec))
    (now : Nat) (store : Store) (docId : String) (patch : Meta)
    (hid : strTruthy (some docId) = true) :
    memoriesPatchHandler endpoint now store (some docId) none (some patch)
      = (.ok ⟨docId, "updated"⟩,
        updateDocs docId (fun d =>
          { d with metadata := mergeMeta d.metadata patch,
                   updatedAt := now }) store) := by
  unfold memoriesPatchHandler
  rw [hid]
  simp [strTruthy]

/-- C8: updating metadata shallow-merges the patch into the existing mapping
— patch keys overwrite, other keys are retained, never a full replacement —
on both update routes; applying a patch with key "a" and then one with key
"b" yields the mapping holding both. -/
theorem C8_metadata_shallow_merge
    (endpoint : List String → Option (List Vec)) (now1 now2 : Nat)
    (store : Store) (docId : String) (p1 p2 : Meta) (d : Document)
    (hd : List.find? (fun x => x.id == docId) store = some d) :
    (patchDocHandler endpoint now1 store docId none (some p1)).1
      = .ok ⟨docId, "updated"⟩
    ∧ List.find? (fun x => x.id == docId)
        ((patchDocHandler endpoint now2
          ((patchDocHandler endpoint now1 store docId none (some p1)).2)
          docId none (some p2)).2)
      = some { d with metadata := mergeMeta (mergeMeta d.metadata p1) p2,
                      updatedAt := now2 }
    ∧ (strTruthy (some docId) = true →
        List.find? (fun x => x.id == docId)
          ((memoriesPatchHandler endpoint now2
            ((memoriesPatchHandler endpoint now1 store (some docId) none
              (some p1)).2)
            (some docId) none (some p2)).2)
        = some { d with metadata := mergeMeta (mergeMeta d.metadata p1) p2,
                        updatedAt := now2 })
    ∧ (∀ (m patch : Meta) (k : String),
        metaLookup (mergeMeta m patch) k
          = if patch.any (fun kv => kv.1 == k) then metaLookup patch k
            else metaLookup m k)
    ∧ mergeMeta (mergeMeta [] [("a", JVal.num 1)]) [("b", JVal.num 2)]
        = [("a", JVal.num 1), ("b", JVal.num 2)] := by
  have hne : (store.filter (fun x => x.id == docId)).isEmpty = false :=
    filterNonempty_of_find _ store d hd
  have hid1 : ∀ x : Document,
      ((fun y : Document =>
        { y with metadata := mergeMeta y.metadata p1,
                 updatedAt := now1 }) x).id = x.id := fun _ => rfl
  have hid2 : ∀ x : Document,
      ((fun y : Document =>
        { y with metadata := mergeMeta y.metadata p2,
                 updatedAt := now2 }) x).id = x.id := fun _ => rfl
  have hfind1 : List.find? (fun x => x.id == docId)
      (updateDocs docId (fun y =>
        { y with metadata := mergeMeta y.metadata p1,
                 updatedAt := now1 }) store)
      = some { d with metadata := mergeMeta d.metadata p1,
                      updatedAt := now1 } := by
    rw [findFirst_updateDocs docId _ hid1 store, hd]
    rfl
  have hne1 : ((updateDocs docId (fun y =>
      { y with metadata := mergeMeta y.metadata p1,
               updatedAt := now1 }) store).filter
        (fun x => x.id == docId)).isEmpty = false :=
    filterNonempty_of_find _ _ _ hfind1
  refine ⟨?_, ?_, ?_, metaLookup_mergeMeta, by decide⟩
  · rw [patchDoc_metadata_only endpoint now1 store docId p1 hne]
  · rw [patchDoc_metadata_only endpoint now1 store docId p1 hne]
    rw [patchDoc_metadata_only endpoint now2 _ docId p2 hne1]
    rw [findFirst_updateDocs docId _ hid2 _, hfind1]
    rfl
  · intro hid
    rw [memoriesPatch_metadata_only endpoint now1 store docId p1 hid]
    rw [memoriesPatch_metadata_only endpoint now2 _ docId p2 hid]
    rw [findFirst_updateDocs docId _ hid2 _, hfind1]
    rfl

/-- Witness for C8 at a concrete store, id and the patches of the claim. -/
theorem C8_metadata_shallow_merge_witness :
    List.find? (fun x => x.id == "a") [wDocA] = some wDocA
    ∧ ((patchDocHandler wEndpoint 3 [wDocA] "a" none
          (some [("a", JVal.num 1)])).1 = .ok ⟨"a", "updated"⟩
      ∧ List.find? (fun x => x.id == "a")
          ((patchDocHandler wEndpoint 4
            ((patchDocHandler wEndpoint 3 [wDocA] "a" none
              (some [("a", JVal.num 1)])).2)
            "a" none (some [("b", JVal.num 2)])).2)
        = some { wDocA with
            metadata := mergeMeta (mergeMeta wDocA.metadata [("a", JVal.num 1)])
              [("b", JVal.num 2)],
            updatedAt := 4 }
      ∧ (strTruthy (some "a") = true →
          List.find? (fun x => x.id == "a")
            ((memoriesPatchHandler wEndpoint 4
              ((memoriesPatchHandler wEndpoint 3 [wDocA] (some "a") none
                (some [("a", JVal.num 1)])).2)
              (some "a") none (some [("b", JVal.num 2)])).2)
          = some { wDocA with
              metadata := mergeMeta (mergeMeta wDocA.metadata
                [("a", JVal.num 1)]) [("b", JVal.num 2)],
              updatedAt := 4 })
      ∧ (∀ (m patch : Meta) (k : String),
          metaLookup (mergeMeta m patch) k
            = if patch.any (fun kv => kv.1 == k) then metaLookup patch k
              else metaLookup m k)
      ∧ mergeMeta (mergeMeta [] [("a", JVal.num 1)]) [("b", JVal.num 2)]
          = [("a", JVal.num 1), ("b", JVal.num 2)]) :=
  ⟨by decide,
    C8_metadata_shallow_merge wEndpoint 3 4 [wDocA] "a" [("a", JVal.num 1)]
      [("b", JVal.num 2)] wDocA (by decide)⟩

/-- Auxiliary: when no write in range fails, the batch insert loop appends
one row per item, in order, and reports one per-item result each. -/
theorem batchInsertLoop_ok (writeFail : Nat → Bool) (idGen : Nat → String)
    (now : Nat) :
    ∀ (items : List (DocIn × Vec)) (i0 : Nat) (st : Store),
      (∀ j, j < items.length → writeFail (i0 + j) = false) →
      batchInsertLoop writeFail idGen now items i0 st
        = (st ++ (List.range items.length).map (fun j =>
            mkRow (idGen (i0 + j)) (items.getD j dfltItem).1
              (items.getD j dfltItem).2 now),
          some ((List.range items.length).map (fun j =>
            (⟨idGen (i0 + j), "processed"⟩ : IdStatus)))) := by
  intro items
  induction items with
  | nil =>
    intro i0 st h
    simp [batchInsertLoop]
  | cons dv rest ih =>
    intro i0 st h
    obtain ⟨d, v⟩ := dv
    have h0 : writeFail i0 = false := by
      have := h 0 (by simp)
      simpa using this
    have harith : ∀ j : Nat, i0 + (j + 1) = (i0 + 1) + j := fun j => by omega
    show batchInsertLoop writeFail idGen now ((d, v) :: rest) i0 st = _
    unfold batchInsertLoop
    rw [h0]
    simp only [Bool.false_eq_true, if_false]
    rw [ih (i0 + 1) (st ++ [mkRow (idGen i0) d v now]) (fun j hj => by
      have := h (j + 1) (by simpa using Nat.succ_lt_succ hj)
      rw [← harith j]
      exact this)]
    simp only [List.length_cons, List.range_succ_eq_map, List.map_cons,
      List.map_map, List.getD_cons_zero, Nat.add_zero, Option.map_some',
      Prod.mk.injEq]
    constructor
    · rw [← List.append_cons]
      congr 1
      congr 1
      refine List.map_congr_left (fun j hj => ?_)
      simp only [Function.comp_apply, List.getD_cons_succ]
      rw [harith j]
    · congr 1
      congr 1
      refine List.map_congr_left (fun j hj => ?_)
      simp only [Function.comp_apply]
      rw [harith j]

/-- Auxiliary: when the write of the k-th row is the first to fail, the
batch insert loop leaves the first k rows committed, writes nothing further,
and aborts. -/
theorem batchInsertLoop_fail (writeFail : Nat → Bool) (idGen : Nat → String)
    (now : Nat) :
    ∀ (items : List (DocIn × Vec)) (i0 : Nat) (st : Store) (k : Nat),
      k < items.length → writeFail (i0 + k) = true →
      (∀ j, j < k → writeFail (i0 + j) = false) →
      batchInsertLoop writeFail idGen now items i0 st
        = (st ++ (List.range k).map (fun j =>
            mkRow (idGen (i0 + j)) (items.getD j dfltItem).1
              (items.getD j dfltItem).2 now),
          none) := by
  intro items
  induction items with
  | nil =>
    intro i0 st k hk _ _
    exact absurd hk (by simp)
  | cons dv rest ih =>
    intro i0 st k hk hfk hpre
    obtain ⟨d, v⟩ := dv
    have harith : ∀ j : Nat, i0 + (j + 1) = (i0 + 1) + j := fun j => by omega
    cases k with
    | zero =>
      have h0 : writeFail i0 = true := by simpa using hfk
      show batchInsertLoop writeFail idGen now ((d, v) :: rest) i0 st = _
      unfold batchInsertLoop
      rw [h0]
      simp
    | succ k2 =>
      have h0 : writeFail i0 = false := by
        have := hpre 0 (Nat.succ_pos k2)
        simpa using this
      show batchInsertLoop writeFail idGen now ((d, v) :: rest) i0 st = _
      unfold batchInsertLoop
      rw [h0]
      simp only [Bool.false_eq_true, if_false]
      rw [ih (i0 + 1) (st ++ [mkRow (idGen i0) d v now]) k2
        (by simpa using Nat.lt_of_succ_lt_succ hk)
        (by rw [← harith k2]; exact hfk)
        (fun j hj => by
          have := hpre (j + 1) (Nat.succ_lt_succ hj)
          rw [← harith j]
          exact this)]
      simp only [List.range_succ_eq_map, List.map_cons, List.map_map,
        List.getD_cons_zero, Nat.add_zero]
      congr 1
      rw [← List.append_cons]
      congr 1
      congr 1
      refine List.map_congr_left (fun j hj => ?_)
      simp only [Function.comp_apply, List.getD_cons_succ]
      rw [harith j]

/-- C6: the batch insert embeds all texts in one batched call before any row
is written — a failing batched embedding call persists nothing; then rows
are written independently in order, so when every write succeeds all rows
are appended, and when the write of row k is the first to fail, rows 0..k-1
remain committed while rows k and later are never written (best-effort per
item, not atomic across the batch). -/
theorem C6_batch_insert_partial_failure
    (endpoint : List String → Option (List Vec)) (writeFail : Nat → Bool)
    (idGen : Nat → String) (now : Nat) (store : Store)
    (ds : List DocIn) (embs : List Vec)
    (hne : ds ≠ [])
    (hemb : generateEmbeddings endpoint (ds.map (fun d => d.content))
      = some embs)
    (hlen : embs.length = ds.length) :
    (∀ e2 : List String → Option (List Vec),
      generateEmbeddings e2 (ds.map (fun d => d.content)) = none →
      batchAddHandler e2 writeFail idGen now store (some ds)
        = (.err 500 "EmbeddingFailure", store))
    ∧ ((∀ j, j < ds.length → writeFail j = false) →
      batchAddHandler endpoint writeFail idGen now store (some ds)
        = (.ok ((List.range ds.length).map (fun j =>
            (⟨idGen j, "processed"⟩ : IdStatus))),
          store ++ (List.range ds.length).map (fun j =>
            mkRow (idGen j) ((ds.zip embs).getD j dfltItem).1
              ((ds.zip embs).getD j dfltItem).2 now)))
    ∧ (∀ k, k < ds.length → writeFail k = true →
        (∀ j, j < k → writeFail j = false) →
      batchAddHandler endpoint writeFail idGen now store (some ds)
        = (.err 500 "StorageFailure",
          store ++ (List.range k).map (fun j =>
            mkRow (idGen j) ((ds.zip embs).getD j dfltItem).1
              ((ds.zip embs).getD j dfltItem).2 now))) := by
  have hde : ds.isEmpty = false := by
    cases ds with
    | nil => exact absurd rfl hne
    | cons a as => rfl
  have hzlen : (ds.zip embs).length = ds.length := by
    rw [List.length_zip, hlen, Nat.min_self]
  refine ⟨?_, ?_, ?_⟩
  · intro e2 he2
    unfold batchAddHandler
    simp only [hde, he2, Bool.false_eq_true, if_false]
  · intro hok
    unfold batchAddHandler
    simp only [hde, hemb, Bool.false_eq_true, if_false]
    rw [batchInsertLoop_ok writeFail idGen now (ds.zip embs) 0 store
      (fun j hj => by
        rw [hzlen] at hj
        simpa using hok j hj)]
    rw [hzlen]
    simp
  · intro k hk hfk hpre
    unfold batchAddHandler
    simp only [hde, hemb, Bool.false_eq_true, if_false]
    rw [batchInsertLoop_fail writeFail idGen now (ds.zip embs) 0 store k
      (by rw [hzlen]; exact hk)
      (by simpa using hfk)
      (fun j hj => by simpa using hpre j hj)]
    simp

/-- Witness for C6 at a concrete two-item batch and endpoint. -/
theorem C6_batch_insert_partial_failure_witness :
    ([⟨"one", none, none⟩, ⟨"two", none, none⟩] : List DocIn) ≠ []
    ∧ generateEmbeddings wEndpointConst
        (([⟨"one", none, none⟩, ⟨"two", none, none⟩] : List DocIn).map
          (fun d => d.content)) = some [[1], [1]]
    ∧ ([[1], [1]] : List Vec).length
        = ([⟨"one", none, none⟩, ⟨"two", none, none⟩] : List DocIn).length
    ∧ ((∀ e2 : List String → Option (List Vec),
        generateEmbeddings e2
          (([⟨"one", none, none⟩, ⟨"two", none, none⟩] : List DocIn).map
            (fun d => d.content)) = none →
        batchAddHandler e2 (fun _ => false) (fun j => toString j) 9 [wDocA]
          (some [⟨"one", none, none⟩, ⟨"two", none, none⟩])
          = (.err 500 "EmbeddingFailure", [wDocA]))
      ∧ ((∀ j, j < ([⟨"one", none, none⟩, ⟨"two", none, none⟩] :
            List DocIn).length → (fun _ => false : Nat → Bool) j = false) →
        batchAddHandler wEndpointConst (fun _ => false) (fun j => toString j) 9
          [wDocA] (some [⟨"one", none, none⟩, ⟨"two", none, none⟩])
          = (.ok ((List.range ([⟨"one", none, none⟩, ⟨"two", none, none⟩] :
              List DocIn).length).map (fun j =>
                (⟨toString j, "processed"⟩ : IdStatus))),
            [wDocA] ++ (List.range ([⟨"one", none, none⟩,
              ⟨"two", none, none⟩] : List DocIn).length).map (fun j =>
              mkRow (toString j)
                ((([⟨"one", none, none⟩, ⟨"two", none, none⟩] :
                  List DocIn).zip ([[1], [1]] : List Vec)).getD j dfltItem).1
                ((([⟨"one", none, none⟩, ⟨"two", none, none⟩] :
                  List DocIn).zip ([[1], [1]] : List Vec)).getD j dfltItem).2
                9)))
      ∧ (∀ k, k < ([⟨"one", none, none⟩, ⟨"two", none, none⟩] :
            List DocIn).length → (fun _ => false : Nat → Bool) k = true →
          (∀ j, j < k → (fun _ => false : Nat → Bool) j = false) →
        batchAddHandler wEndpointConst (fun _ => false) (fun j => toString j) 9
          [wDocA] (some [⟨"one", none, none⟩, ⟨"two", none, none⟩])
          = (.err 500 "StorageFailure",
            [wDocA] ++ (List.range k).map (fun j =>
              mkRow (toString j)
                ((([⟨"one", none, none⟩, ⟨"two", none, none⟩] :
                  List DocIn).zip ([[1], [1]] : List Vec)).getD j dfltItem).1
                ((([⟨"one", none, none⟩, ⟨"two", none, none⟩] :
                  List DocIn).zip ([[1], [1]] : List Vec)).getD j dfltItem).2
                9)))) :=
  ⟨by decide, by decide, by decide,
    C6_batch_insert_partial_failure wEndpointConst (fun _ => false)
      (fun j => toString j) 9 [wDocA]
      [⟨"one", none, none⟩, ⟨"two", none, none⟩] [[1], [1]]
      (by decide) (by decide) (by decide)⟩

/-- Auxiliary: the v3 search SQL result in canonical form — a single
conjunctive filter, sorted by distance, truncated. -/
theorem searchV3rows_eq_canonical (dist : Vec → Vec → ℚ) (store : Store)
    (qv : Vec) (tag : Option String) (lim : Nat) (thr : ℚ)
    (htag : ∀ t, tag = some t → t ≠ "") :
    searchV3rows dist store qv tag lim thr
      = ((store.filter (fun d => d.embedding.isSome
          && (match tag with | some t => d.containerTag == t | none => true)
          && decide (thr < 1 - distToQuery dist qv d))).insertionSort
            (byDist dist qv)).take lim := by
  unfold searchV3rows
  cases tag with
  | none =>
    have h1 : strTruthy (none : Option String) = false := rfl
    rw [h1]
    simp only [Bool.false_eq_true, if_false, List.filter_filter]
    refine congrArg (List.take lim)
      (congrArg (List.insertionSort (byDist dist qv))
        (List.filter_congr (fun d hd => ?_)))
    cases hembd : d.embedding.isSome <;>
      cases hthr : decide (thr < 1 - distToQuery dist qv d) <;>
        simp [hembd, hthr]
  | some t =>
    have ht := htag t rfl
    have h1 : strTruthy (some t) = true := by
      simp [strTruthy]
      exact ht
    rw [h1]
    simp only [if_true, Option.getD_some, List.filter_filter]
    refine congrArg (List.take lim)
      (congrArg (List.insertionSort (byDist dist qv))
        (List.filter_congr (fun d hd => ?_)))
    cases hembd : d.embedding.isSome <;>
      cases htg : (d.containerTag == t) <;>
        cases hthr : decide (thr < 1 - distToQuery dist qv d) <;>
          simp [hembd, htg, hthr]

/-- Auxiliary: evaluation of the v3 handler on a truthy query. -/
theorem searchV3Handler_ok (dist : Vec → Vec → ℚ)
    (endpoint : List String → Option (List Vec)) (store : Store)
    (body : SearchBody) (qv : Vec)
    (hq : strTruthy body.q = true)
    (hqv : generateEmbedding endpoint (body.q.getD "") = some qv) :
    searchV3Handler dist endpoint store body
      = .ok ((searchV3rows dist store qv body.containerTag
          (body.limit.getD 10) (body.threshold.getD (3 / 10))).map
            (projV3 dist qv),
        (searchV3rows dist store qv body.containerTag
          (body.limit.getD 10) (body.threshold.getD (3 / 10))).length) := by
  unfold searchV3Handler
  rw [hq, hqv]
  simp

/-- Auxiliary: evaluation of the v4 handler on a truthy query. -/
theorem searchV4Handler_ok (dist : Vec → Vec → ℚ)
    (endpoint : List String → Option (List Vec)) (store : Store)
    (body : SearchV4Body) (qv : Vec)
    (hq : strTruthy body.q = true)
    (hqv : generateEmbedding endpoint (body.q.getD "") = some qv) :
    searchV4Handler dist endpoint store body
      = .ok ((searchV4rows dist store qv (body.limit.getD 10)).map
          (projV4 dist qv)) := by
  unfold searchV4Handler
  rw [hq, hqv]
  simp

/-- C1: for every v3 search call with a truthy query text, optional
(non-empty) tag, limit (default 10) and threshold (default 0.3), the
returned results are exactly the stored documents with a non-null embedding,
matching the tag when given, whose score `1 - dist(queryVector, docVector)`
is strictly greater than the threshold, ordered by ascending distance
(descending score) and truncated to the first `limit`. -/
theorem C1_searchV3_results (dist : Vec → Vec → ℚ)
    (endpoint : List String → Option (List Vec)) (store : Store)
    (body : SearchBody) (qv : Vec)
    (hq : strTruthy body.q = true)
    (hqv : generateEmbedding endpoint (body.q.getD "") = some qv)
    (htag : ∀ t, body.containerTag = some t → t ≠ "") :
    ∃ rows : List Document,
      searchV3Handler dist endpoint store body
        = .ok (rows.map (projV3 dist qv), rows.length)
      ∧ rows = ((store.filter (fun d => d.embedding.isSome
          && (match body.containerTag with
              | some t => d.containerTag == t
              | none => true)
          && decide (body.threshold.getD (3 / 10)
              < 1 - distToQuery dist qv d))).insertionSort
            (byDist dist qv)).take (body.limit.getD 10)
      ∧ List.Sorted (byDist dist qv) rows
      ∧ List.Sorted (fun a b : V3Hit => b.score ≤ a.score)
          (rows.map (projV3 dist qv))
      ∧ rows.length ≤ body.limit.getD 10
      ∧ (∀ d ∈ rows, d ∈ store ∧ d.embedding.isSome = true
          ∧ (∀ t, body.containerTag = some t → d.containerTag = t)
          ∧ body.threshold.getD (3 / 10) < 1 - distToQuery dist qv d)
      ∧ ((store.filter (fun d => d.embedding.isSome
          && (match body.containerTag with
              | some t => d.containerTag == t
              | none => true)
          && decide (body.threshold.getD (3 / 10)
              < 1 - distToQuery dist qv d))).length ≤ body.limit.getD 10 →
          ∀ d ∈ store, d.embedding.isSome = true →
            (∀ t, body.containerTag = some t → d.containerTag = t) →
            body.threshold.getD (3 / 10) < 1 - distToQuery dist qv d →
            d ∈ rows) := by
  haveI htot : IsTotal Document (byDist dist qv) := ⟨fun a b => le_total _ _⟩
  haveI htrans : IsTrans Document (byDist dist qv) :=
    ⟨fun a b c hab hbc => le_trans hab hbc⟩
  refine ⟨((store.filter (fun d => d.embedding.isSome
      && (match body.containerTag with
          | some t => d.containerTag == t
          | none => true)
      && decide (body.threshold.getD (3 / 10)
          < 1 - distToQuery dist qv d))).insertionSort
        (byDist dist qv)).take (body.limit.getD 10),
    ?_, rfl, ?_, ?_, ?_, ?_, ?_⟩
  · rw [searchV3Handler_ok dist endpoint store body qv hq hqv,
      searchV3rows_eq_canonical dist store qv body.containerTag _ _ htag]
  · exact List.Pairwise.sublist (List.take_sublist _ _)
      (List.sorted_insertionSort _ _)
  · have hs : List.Sorted (byDist dist qv)
        (((store.filter (fun d => d.embedding.isSome
          && (match body.containerTag with
              | some t => d.containerTag == t
              | none => true)
          && decide (body.threshold.getD (3 / 10)
              < 1 - distToQuery dist qv d))).insertionSort
            (byDist dist qv)).take (body.limit.getD 10)) :=
      List.Pairwise.sublist (List.take_sublist _ _)
        (List.sorted_insertionSort _ _)
    exact List.pairwise_map.mpr (hs.imp (fun hab => sub_le_sub_left hab 1))
  · exact List.length_take_le _ _
  · intro d hd
    have hd2 : d ∈ (store.filter (fun d => d.embedding.isSome
        && (match body.containerTag with
            | some t => d.containerTag == t
            | none => true)
        && decide (body.threshold.getD (3 / 10)
            < 1 - distToQuery dist qv d))).insertionSort (byDist dist qv) :=
      List.mem_of_mem_take hd
    have hd3 := ((List.perm_insertionSort _ _).mem_iff).mp hd2
    have hd4 := List.mem_filter.mp hd3
    obtain ⟨hdst, hpred⟩ := hd4
    rw [Bool.and_eq_true, Bool.and_eq_true] at hpred
    obtain ⟨⟨h1, h2⟩, h3⟩ := hpred
    refine ⟨hdst, h1, ?_, of_decide_eq_true h3⟩
    intro t ht
    rw [ht] at h2
    exact eq_of_beq h2
  · intro hcap d hdst hsome htagm hthr
    have hpred : (d.embedding.isSome
        && (match body.containerTag with
            | some t => d.containerTag == t
            | none => true)
        && decide (body.threshold.getD (3 / 10)
            < 1 - distToQuery dist qv d)) = true := by
      rw [Bool.and_eq_true, Bool.and_eq_true]
      refine ⟨⟨hsome, ?_⟩, decide_eq_true hthr⟩
      cases htag0 : body.containerTag with
      | none => rfl
      | some t => exact beq_iff_eq.mpr (htagm t htag0)
    have hmemf : d ∈ store.filter (fun d => d.embedding.isSome
        && (match body.containerTag with
            | some t => d.containerTag == t
            | none => true)
        && decide (body.threshold.getD (3 / 10)
            < 1 - distToQuery dist qv d)) :=
      List.mem_filter.mpr ⟨hdst, hpred⟩
    have hmems := ((List.perm_insertionSort (byDist dist qv) _).mem_iff).mpr hmemf
    have hlen : ((store.filter (fun d => d.embedding.isSome
        && (match body.containerTag with
            | some t => d.containerTag == t
            | none => true)
        && decide (body.threshold.getD (3 / 10)
            < 1 - distToQuery dist qv d))).insertionSort
          (byDist dist qv)).length ≤ body.limit.getD 10 := by
      rw [(List.perm_insertionSort (byDist dist qv) _).length_eq]
      exact hcap
    rw [List.take_of_length_le hlen]
    exact hmems

/-- Counterexample to C2: on the same store and query with all defaults,
the v3 endpoint returns no hit (the only document scores 0, below the 0.3
threshold) while the v4 endpoint returns that document — the two endpoints
do not select the same documents. -/
theorem C2_same_selection_counterexample :
    searchV3Handler wDistFar wEndpointConst [wDocA] ⟨some "xx", none, none, none⟩
      = .ok ([], 0)
    ∧ searchV4Handler wDistFar wEndpointConst [wDocA] ⟨some "xx", none⟩
      = .ok [⟨"a", "alpha", [], 0, 0⟩]
    ∧ ¬ (([] : List V3Hit).map (fun h => h.id)
        = ([⟨"a", "alpha", [], 0, 0⟩] : List V4Hit).map (fun h => h.id)) := by
  refine ⟨?_, ?_, by decide⟩
  · norm_num [searchV3Handler, searchV3rows, generateEmbedding, truncateBudget,
      show strTruthy (some "xx") = true from by decide,
      List.insertionSort, List.orderedInsert, wDistFar, wEndpointConst, wDocA,
      distToQuery, projV3, List.filter]
  · norm_num [searchV4Handler, searchV4rows, generateEmbedding, truncateBudget,
      show strTruthy (some "xx") = true from by decide,
      List.insertionSort, List.orderedInsert, wDistFar, wEndpointConst, wDocA,
      distToQuery, projV4, List.filter]

/-- C2 (amended): the two search endpoints share the ranking semantics —
both order by the same ascending-distance relation and truncate to their
limit — and differ in field projection exactly as described (v3 hits carry
`updatedAt`, v4 hits do not), but they do not select the same documents:
v4 applies neither the containerTag filter nor the minScore filter and
ranks every document with a non-null embedding. -/
theorem C2_v3_v4_ranking_amended (dist : Vec → Vec → ℚ)
    (endpoint : List String → Option (List Vec)) (store : Store)
    (b3 : SearchBody) (b4 : SearchV4Body) (qv : Vec)
    (hq3 : strTruthy b3.q = true) (hq4 : strTruthy b4.q = true)
    (hqv3 : generateEmbedding endpoint (b3.q.getD "") = some qv)
    (hqv4 : generateEmbedding endpoint (b4.q.getD "") = some qv)
    (htag : ∀ t, b3.containerTag = some t → t ≠ "") :
    searchV4Handler dist endpoint store b4
      = .ok ((((store.filter (fun d => d.embedding.isSome)).insertionSort
          (byDist dist qv)).take (b4.limit.getD 10)).map (projV4 dist qv))
    ∧ searchV3Handler dist endpoint store b3
      = .ok (((((store.filter (fun d => d.embedding.isSome
          && (match b3.containerTag with
              | some t => d.containerTag == t
              | none => true)
          && decide (b3.threshold.getD (3 / 10)
              < 1 - distToQuery dist qv d))).insertionSort
            (byDist dist qv)).take (b3.limit.getD 10)).map (projV3 dist qv)),
        ((((store.filter (fun d => d.embedding.isSome
          && (match b3.containerTag with
              | some t => d.containerTag == t
              | none => true)
          && decide (b3.threshold.getD (3 / 10)
              < 1 - distToQuery dist qv d))).insertionSort
            (byDist dist qv)).take (b3.limit.getD 10)).length))
    ∧ (∀ d : Document, (projV3 dist qv d).score = 1 - distToQuery dist qv d
        ∧ (projV4 dist qv d).score = 1 - distToQuery dist qv d
        ∧ (projV3 dist qv d).updatedAt = d.updatedAt
        ∧ projV4 dist qv d
          = ⟨d.id, d.content, d.metadata, 1 - distToQuery dist qv d,
              d.createdAt⟩) := by
  refine ⟨?_, ?_, fun d => ⟨rfl, rfl, rfl, rfl⟩⟩
  · rw [searchV4Handler_ok dist endpoint store b4 qv hq4 hqv4]
    rfl
  · rw [searchV3Handler_ok dist endpoint store b3 qv hq3 hqv3,
      searchV3rows_eq_canonical dist store qv b3.containerTag _ _ htag]

/-- Witness for C1 at a concrete store, distance operator and query. -/
theorem C1_searchV3_results_witness :
    strTruthy (some "xx") = true
    ∧ generateEmbedding wEndpointConst "xx" = some [1]
    ∧ (∀ t, (none : Option String) = some t → t ≠ "")
    ∧ (∃ rows : List Document,
      searchV3Handler wDist wEndpointConst [wDocA, wDocB, wDocN]
          ⟨some "xx", none, none, none⟩
        = .ok (rows.map (projV3 wDist [1]), rows.length)
      ∧ rows = (([wDocA, wDocB, wDocN].filter (fun d => d.embedding.isSome
          && true
          && decide ((3 : ℚ) / 10 < 1 - distToQuery wDist [1] d))).insertionSort
            (byDist wDist [1])).take 10
      ∧ List.Sorted (byDist wDist [1]) rows
      ∧ List.Sorted (fun a b : V3Hit => b.score ≤ a.score)
          (rows.map (projV3 wDist [1]))
      ∧ rows.length ≤ 10
      ∧ (∀ d ∈ rows, d ∈ [wDocA, wDocB, wDocN] ∧ d.embedding.isSome = true
          ∧ (∀ t, (none : Option String) = some t → d.containerTag = t)
          ∧ (3 : ℚ) / 10 < 1 - distToQuery wDist [1] d)
      ∧ (([wDocA, wDocB, wDocN].filter (fun d => d.embedding.isSome
          && true
          && decide ((3 : ℚ) / 10 < 1 - distToQuery wDist [1] d))).length ≤ 10 →
          ∀ d ∈ [wDocA, wDocB, wDocN], d.embedding.isSome = true →
            (∀ t, (none : Option String) = some t → d.containerTag = t) →
            (3 : ℚ) / 10 < 1 - distToQuery wDist [1] d →
            d ∈ rows)) :=
  ⟨by decide, by rfl, fun t ht => Option.noConfusion ht,
    C1_searchV3_results wDist wEndpointConst [wDocA, wDocB, wDocN]
      ⟨some "xx", none, none, none⟩ [1] (by decide) (by rfl)
      (fun t ht => Option.noConfusion ht)⟩

/-- Witness for C2 (amended) at a concrete store and query. -/
theorem C2_v3_v4_ranking_amended_witness :
    strTruthy (some "xx") = true
    ∧ generateEmbedding wEndpointConst "xx" = some [1]
    ∧ (∀ t, (none : Option String) = some t → t ≠ "")
    ∧ (searchV4Handler wDist wEndpointConst [wDocA, wDocB, wDocN]
          ⟨some "xx", none⟩
        = .ok (((([wDocA, wDocB, wDocN].filter
            (fun d => d.embedding.isSome)).insertionSort
            (byDist wDist [1])).take 10).map (projV4 wDist [1]))
      ∧ searchV3Handler wDist wEndpointConst [wDocA, wDocB, wDocN]
          ⟨some "xx", none, none, none⟩
        = .ok ((((([wDocA, wDocB, wDocN].filter (fun d => d.embedding.isSome
            && true
            && decide ((3 : ℚ) / 10
                < 1 - distToQuery wDist [1] d))).insertionSort
              (byDist wDist [1])).take 10).map (projV3 wDist [1])),
          (((([wDocA, wDocB, wDocN].filter (fun d => d.embedding.isSome
            && true
            && decide ((3 : ℚ) / 10
                < 1 - distToQuery wDist [1] d))).insertionSort
              (byDist wDist [1])).take 10).length))
      ∧ (∀ d : Document,
          (projV3 wDist [1] d).score = 1 - distToQuery wDist [1] d
          ∧ (projV4 wDist [1] d).score = 1 - distToQuery wDist [1] d
          ∧ (projV3 wDist [1] d).updatedAt = d.updatedAt
          ∧ projV4 wDist [1] d
            = ⟨d.id, d.content, d.metadata, 1 - distToQuery wDist [1] d,
                d.createdAt⟩)) :=
  ⟨by decide, by rfl, fun t ht => Option.noConfusion ht,
    C2_v3_v4_ranking_amended wDist wEndpointConst [wDocA, wDocB, wDocN]
      ⟨some "xx", none, none, none⟩ ⟨some "xx", none⟩ [1]
      (by decide) (by decide) (by rfl) (by rfl)
      (fun t ht => Option.noConfusion ht)⟩

end Supermemory
